import Mathlib

/-!
Verification of the python-dispatch event/property library against its
specification.  The definitions below are shallow embeddings of the source
files `pydispatch/dispatch.py`, `pydispatch/utils.py` and
`pydispatch/properties.py`.  Python object state becomes explicit record
state, raised exceptions become `Option`/`Except` style results, and the
side effects relevant to the claims (callback invocation, channel dispatch)
are recorded in explicit logs.
-/

/-- Model of the return value of a Python callback as observed by
`Event.__call__` (dispatch.py lines 96-99).  The dispatch loop tests the
result with `r is False`, an identity test against the singleton `False`,
so the model only needs to distinguish the `False` singleton from every
other value.  `pyNone` models the implicit `None` return. -/
inductive PyRet where
  | pyFalse
  | pyTrue
  | pyNone
  | pyOther (n : Nat)
deriving DecidableEq, Repr

/-- State of one `Event` channel (dispatch.py lines 59-105) together with its
`EmissionHoldLock` (utils.py lines 122-164).  `listeners` models the
synchronous listeners yielded by `WeakMethodContainer.iter_methods`; the
async collaborators (`aio_waiters`, `aio_listeners`) are out of scope.
`held` and `lastEvent` are the `held` and `last_event` attributes of the
lock.  `dispatchLog` records the payload of every dispatch that reached the
listener loop (one entry per dispatch), and `invoked` records the index of
every listener invocation, in order. -/
structure EventState (α : Type) where
  listeners : List (α → PyRet)
  held : Bool
  lastEvent : Option α
  dispatchLog : List α
  invoked : List Nat

/-- Model of the listener loop in `Event.__call__` (dispatch.py lines 96-99):
each listener is called in turn with the payload; if a call returns the
boolean `False` the loop returns that value at once, otherwise the loop
falls through and returns `None`.  The second component lists the indices
of the listeners that were actually invoked. -/
def runListeners {α : Type} : List (α → PyRet) → Nat → α → PyRet × List Nat
  | [], _, _ => (.pyNone, [])
  | f :: fs, i, p =>
    if f p = .pyFalse then (.pyFalse, [i])
    else
      let r := runListeners fs (i + 1) p
      (r.1, i :: r.2)

/-- Model of `Event.__call__` (dispatch.py lines 86-99).  When the emission
lock is held the payload is recorded as `last_event` and the call returns
immediately (returning `None`) with no listener invocation; otherwise the
listeners run, the dispatch is logged, and the loop result is returned.
`Dispatcher.emit` (dispatch.py line 310) returns this value unchanged. -/
def eventCall {α : Type} (s : EventState α) (p : α) : EventState α × PyRet :=
  if s.held then ({ s with lastEvent := some p }, .pyNone)
  else
    let r := runListeners s.listeners 0 p
    ({ s with dispatchLog := s.dispatchLog ++ [p],
              invoked := s.invoked ++ r.2 }, r.1)

/-- Model of `EmissionHoldLock.acquire` (utils.py lines 152-156): a second
acquire while held is a no-op; the first acquire sets `held` and clears the
pending event. -/
def lockAcquire {α : Type} (s : EventState α) : EventState α :=
  if s.held then s else { s with held := true, lastEvent := none }

/-- Model of `EmissionHoldLock.release` (utils.py lines 157-164): a release
while not held is a no-op.  When held with a pending event, the pending
event is cleared, `held` is set to false, and the event is dispatched via
`Event.__call__`.  When held with no pending event the source returns
without touching `held` at all. -/
def lockRelease {α : Type} (s : EventState α) : EventState α :=
  if s.held then
    match s.lastEvent with
    | some p => (eventCall { s with held := false, lastEvent := none } p).1
    | none => s
  else s

/-- Folding a list of emissions into the event state, discarding the return
values, models a sequence of `emit` calls. -/
def emitAll {α : Type} (s : EventState α) (ps : List α) : EventState α :=
  ps.foldl (fun t p => (eventCall t p).1) s

/-- Concrete channel used to exercise the emission-lock theorems: one
listener that returns a non-False value, lock currently held. -/
def sampleHeldEvent : EventState (Nat × Nat) :=
  { listeners := [fun _ => .pyNone], held := true, lastEvent := none,
    dispatchLog := [], invoked := [] }

/-- Concrete three-listener channel: the second listener returns False. -/
def shortCircuitEvent : EventState Nat :=
  { listeners := [fun _ => .pyTrue, fun _ => .pyFalse, fun _ => .pyOther 3],
    held := false, lastEvent := none, dispatchLog := [], invoked := [] }

/-- Concrete channel used to exhibit the release bug: one listener, lock not
held, nothing pending. -/
def idleEvent : EventState Nat :=
  { listeners := [fun _ => .pyOther 0], held := false, lastEvent := none,
    dispatchLog := [], invoked := [] }

/-- Model of the Python values flowing through `Property.__set__` and the
validators in properties.py.  `pyNone` is the `None` singleton, `pyBool`
and `pyInt` the corresponding builtins (`bool` is a subclass of `int` in
Python, and the source treats it specially), `pyStr` strings, and `pyObj`
any other object, compared by identity. -/
inductive PVal where
  | pyNone
  | pyBool (b : Bool)
  | pyInt (n : Int)
  | pyStr (s : String)
  | pyObj (k : Nat)
deriving DecidableEq, Repr

/-- Model of the Python equality test `current == value` used by
`Property.__set__` (properties.py line 127) on the fragment of values
modelled by `PVal`: numeric cross-type equality makes `True == 1` and
`False == 0` hold; `pyObj` falls back to identity. -/
def pyEq : PVal → PVal → Bool
  | .pyNone, .pyNone => true
  | .pyBool a, .pyBool b => a == b
  | .pyBool a, .pyInt n => (if a then (1 : Int) else 0) == n
  | .pyInt n, .pyBool b => n == (if b then (1 : Int) else 0)
  | .pyInt a, .pyInt b => a == b
  | .pyStr a, .pyStr b => a == b
  | .pyObj a, .pyObj b => a == b
  | _, _ => false

/-- The three validation error kinds raised by property assignment
(properties.py lines 60-73): `NoneNotAllowedError`, `InvalidTypeError` and
`OutOfRangeError`, all subclasses of `ValidationError`. -/
inductive VError where
  | noneNotAllowed
  | invalidType
  | outOfRange
deriving DecidableEq, Repr

/-- Model of the range test in `NumericProperty._validate_value`
(properties.py lines 260-265): if a minimum is set and the value is below
it, `OutOfRangeError`; otherwise if a maximum is set and the value is above
it, `OutOfRangeError`; otherwise the (coerced) value is returned. -/
def numericRangeCheck (vmin vmax : Option Int) (n : Int) : Except VError PVal :=
  match vmin with
  | some m =>
    if n < m then .error .outOfRange
    else
      match vmax with
      | some M => if M < n then .error .outOfRange else .ok (.pyInt n)
      | none => .ok (.pyInt n)
  | none =>
    match vmax with
    | some M => if M < n then .error .outOfRange else .ok (.pyInt n)
    | none => .ok (.pyInt n)

/-- Model of `NumericProperty._validate_value` (properties.py lines 256-265):
a `bool` value is rejected with `InvalidTypeError` before anything else;
then `_coerce_value` runs (its per-subclass behaviour is the `coerce`
parameter, returning the coerced number or `InvalidTypeError`); then the
effective range is checked. -/
def numericValidate (coerce : PVal → Except VError Int) (vmin vmax : Option Int)
    (v : PVal) : Except VError PVal :=
  match v with
  | .pyBool _ => .error .invalidType
  | _ =>
    match coerce v with
    | .error e => .error e
    | .ok n => numericRangeCheck vmin vmax n

/-- Model of `NumericProperty._coerce_value` for `IntProperty`
(properties.py lines 267-284): in the modelled value universe the only
members of `numbers.Integral` are `int` and `bool`, and `bool` never
reaches the coercion, so an `int` passes through unchanged and everything
else raises `InvalidTypeError`. -/
def intCoerce : PVal → Except VError Int
  | .pyInt n => .ok n
  | _ => .error .invalidType

/-- Model of `BoolProperty._validate_value` (properties.py lines 171-174):
the value passes only if its type is exactly `bool`. -/
def boolValidateValue : PVal → Except VError PVal
  | .pyBool b => .ok (.pyBool b)
  | _ => .error .invalidType

/-- Per-instance view of a `Property` (properties.py lines 75-155) for one
dispatcher instance: the class-level default, the `allownone` flag, the
entry of the per-instance storage dict for this instance (`none` when the
instance is not yet in storage), and the log of `_on_change` dispatches as
`(old, new)` pairs.  An unchanged `emitted` means no dispatch and hence no
listener invocation. -/
structure PropState where
  default : PVal
  allownone : Bool
  stored : Option PVal
  emitted : List (PVal × PVal)
deriving DecidableEq, Repr

/-- Model of `Property.__set__` (properties.py lines 118-130).  The order
follows the source: the `None`/`allownone` gate raises first; then
`_add_instance` materializes the default when the instance is missing from
storage; then `_validate_value` runs (skipped for `None`); a validation
error propagates leaving storage and dispatch log unchanged; equal values
(Python `==`) return without storing or dispatching; otherwise the value is
stored and `_on_change` dispatches `(old, new)`. -/
def propertySet (validate : PVal → Except VError PVal) (s : PropState)
    (value : PVal) : PropState × Option VError :=
  if value = PVal.pyNone ∧ s.allownone = false then (s, some .noneNotAllowed)
  else
    let current := s.stored.getD s.default
    let s1 : PropState := { s with stored := some current }
    match (if value = PVal.pyNone then Except.ok value else validate value) with
    | .error e => (s1, some e)
    | .ok v =>
      if pyEq current v then (s1, none)
      else ({ s1 with stored := some v, emitted := s1.emitted ++ [(current, v)] }, none)

/-- Concrete bounded integer property instance with stored value 5. -/
def intPropState : PropState :=
  { default := .pyInt 0, allownone := false, stored := some (.pyInt 5),
    emitted := [] }

/-- Model of a callback as stored by `WeakMethodContainer` (utils.py lines
18-39): either a free function identified by `id(m)`, or a bound method
identified by the underlying function object and the owner identity
`id(obj)`. -/
inductive Callback where
  | func (fid : Nat)
  | method (fid : Nat) (objId : Nat)
deriving DecidableEq, Repr

/-- The two-tuple key under which `WeakMethodContainer.add_method` stores a
callback (utils.py lines 34-39): `("function", id(m))` for functions and
`(f, id(obj))` for bound methods. -/
inductive WrKey where
  | funcKey (fid : Nat)
  | methKey (fid : Nat) (objId : Nat)
deriving DecidableEq, Repr

/-- The key computed by `add_method` and `del_method` for a callback. -/
def Callback.wrkey : Callback → WrKey
  | .func fid => .funcKey fid
  | .method fid objId => .methKey fid objId

/-- Model of the `WeakMethodContainer` (a `WeakValueDictionary`): an
association list from `wrkey` to the stored callback, in insertion order.
The stored value in the source is the owner object (methods) or the
function itself; `iter_methods` resolves it back to the callable, which the
model keeps directly. -/
abbrev WMContainer : Type := List (WrKey × Callback)

/-- Model of Python dict assignment `self[wrkey] = value`: replace the value
of an existing key in place, otherwise append a new entry. -/
def dictSet : List (WrKey × Callback) → WrKey → Callback → List (WrKey × Callback)
  | [], k, c => [(k, c)]
  | kv :: rest, k, c =>
    if kv.1 = k then (k, c) :: rest else kv :: dictSet rest k c

/-- Model of `WeakMethodContainer.add_method` (utils.py lines 28-39): the
callback is stored under its `wrkey` by dict assignment. -/
def addMethod (d : WMContainer) (m : Callback) : WMContainer :=
  dictSet d m.wrkey m

/-- Model of `WeakMethodContainer.iter_methods` (utils.py lines 77-88): one
callable is yielded per stored entry (all owners live in this model). -/
def iterMethods (d : WMContainer) : List Callback :=
  d.map Prod.snd

/-- Well-formedness of a `WeakMethodContainer`: dict keys are unique, and
every entry is stored under the key `add_method` computes for its value.
Both hold for every container built by `add_method` from empty. -/
def wmcWF (d : WMContainer) : Prop :=
  (d.map Prod.fst).Nodup ∧ ∀ kv ∈ d, kv.1 = kv.2.wrkey

/-- Per-instance registry state of a `Dispatcher` (dispatch.py lines
141-150): the property channel names, the event channel names, and the
listener bindings made so far as `(channel name, callback id)` pairs, in
binding order. -/
structure DispatcherState where
  propEvents : List String
  events : List String
  bindings : List (String × Nat)
deriving DecidableEq, Repr

/-- A name resolves to a channel when it is a property channel or an event
channel (dispatch.py lines 239-245). -/
def eventRegistered (s : DispatcherState) (name : String) : Bool :=
  s.propEvents.contains name || s.events.contains name

/-- Model of `Dispatcher.bind` (dispatch.py lines 235-246): the keyword
arguments are processed in order; each name is resolved to its channel and
the callback added as a listener; an unresolved name raises
`DoesNotExistError` (returned as `some name`) at the point it is reached,
keeping the listeners already added. -/
def dispatcherBind : DispatcherState → List (String × Nat) →
    DispatcherState × Option String
  | s, [] => (s, none)
  | s, (n, cb) :: rest =>
    if eventRegistered s n then
      dispatcherBind { s with bindings := s.bindings ++ [(n, cb)] } rest
    else (s, some n)

/-- Concrete dispatcher with one property channel, one event channel and no
bindings. -/
def bindDemoState : DispatcherState :=
  { propEvents := ["value"], events := ["on_test"], bindings := [] }

/-- Plain Python values handed to `ObservableDict.__setitem__`: integers and
plain (unwrapped) dicts. -/
inductive PyObj where
  | int (n : Int)
  | dict (entries : List (String × PyObj))

/-- Values stored inside an `ObservableDict` tree: integers and nested
`ObservableDict` containers.  Every `obsDict` node below the root carries
(in the source) a `parent_observable` link to its enclosing container; in
this tree representation the parent is the enclosing node itself. -/
inductive ObsVal where
  | int (n : Int)
  | obsDict (entries : List (String × ObsVal))

mutual

/-- Model of `Observable._build_observable` (properties.py lines 387-392)
combined with the `ObservableDict` constructor (properties.py lines
481-493): an inserted plain dict is copied into a new `ObservableDict`
carrying a parent link to the inserting container; during this population
`_init_complete` is false, so none of the recursive inserts emits. -/
def buildObservable : PyObj → ObsVal
  | .int n => .int n
  | .dict es => .obsDict (buildEntries es)

/-- Recursive wrapping of the entries of an inserted plain dict. -/
def buildEntries : List (String × PyObj) → List (String × ObsVal)
  | [] => []
  | (k, v) :: rest => (k, buildObservable v) :: buildEntries rest

end

/-- Model of Python dict assignment on the entry list of an
`ObservableDict`: replace the value of an existing key in place, otherwise
append the new entry. -/
def dictAssoc : List (String × ObsVal) → String → ObsVal →
    List (String × ObsVal)
  | [], k, v => [(k, v)]
  | kv :: rest, k, v =>
    if kv.1 = k then (k, v) :: rest else kv :: dictAssoc rest k v

/-- Model of `ObservableDict.__setitem__` (properties.py lines 494-498)
invoked on the container reached from the root by following `path`: the
item is wrapped by `_build_observable` and stored.  Returns `none` when the
path does not lead to a nested `ObservableDict` (a `KeyError` in Python).
The change notification travels back up exactly this recursion: each
enclosing container relays it unchanged (`_emit_change`, properties.py
lines 414-416). -/
def setAtPath : List (String × ObsVal) → List String → String → PyObj →
    Option (List (String × ObsVal))
  | es, [], k, item => some (dictAssoc es k (buildObservable item))
  | es, p :: ps, k, item =>
    match (es.find? (fun kv => kv.1 == p)).map Prod.snd with
    | some (.obsDict child) =>
      match setAtPath child ps k item with
      | some child' => some (dictAssoc es p (.obsDict child'))
      | none => none
    | _ => none

/-- The chain of `parent_observable` links from a container up to the root
observable, which alone holds the `property` and `obj` references
(properties.py lines 410-418). -/
inductive ObsCtx where
  | root
  | child (parent : ObsCtx)

/-- Model of `Observable._emit_change` (properties.py lines 410-418) after
construction is complete: the number of Channel dispatches driven when the
notification starts at a container with the given parent chain.  A
container with a parent forwards the notification upward and drives no
dispatch itself; the root calls `property._on_change`, driving exactly one
dispatch. -/
def emitChangeDispatches : ObsCtx → Nat
  | .root => 1
  | .child parent => emitChangeDispatches parent

/-- State of a dict-typed property value: the entry list of the root
`ObservableDict` and the log of Channel dispatches on the property channel,
each carrying the root container (the source passes `self`, the root, as
the new value; `old` is `None` outside copy-on-change mode). -/
structure DictPropertyState where
  value : List (String × ObsVal)
  dispatchLog : List (List (String × ObsVal))

/-- A mutating `__setitem__` call addressed at the container reached by
`path`: the mutation runs, then its notification bubbles to the root, which
drives exactly one dispatch carrying the root container (see
`emitChangeDispatches`).  An invalid path changes nothing. -/
def odictSetItem (s : DictPropertyState) (path : List String) (k : String)
    (item : PyObj) : DictPropertyState :=
  match setAtPath s.value path k item with
  | some v' => { value := v', dispatchLog := s.dispatchLog ++ [v'] }
  | none => s

/-- Per-instance slot of a container-typed property (`ListProperty` or
`DictProperty`).  `sharedDefault` is the alias of the class-level default
container that `Property._add_instance` actually stores: its per-instance
`default` argument is ignored and `self.default` is stored instead
(properties.py lines 101-105).  `own` is an `ObservableContainer` built for
this instance alone, with contents copied from the default at wrap time
(`ObservableList(value)` / `ObservableDict(value)` copy their initializer,
properties.py lines 331-338 and 367-374). -/
inductive CSlot (α : Type) where
  | sharedDefault
  | own (value : α)
deriving DecidableEq, Repr

/-- State of one container-typed property: the class-level default contents
and the per-instance storage mapping `id(obj)` to its slot. -/
structure ContainerPropState (α : Type) where
  default : α
  storage : List (Nat × CSlot α)
deriving DecidableEq, Repr

/-- Storage lookup by instance id. -/
def slotFind {α : Type} (st : List (Nat × CSlot α)) (k : Nat) :
    Option (CSlot α) :=
  (st.find? (fun kv => kv.1 == k)).map Prod.snd

/-- Python dict assignment on the storage: replace in place or append. -/
def slotStore {α : Type} : List (Nat × CSlot α) → Nat → CSlot α →
    List (Nat × CSlot α)
  | [], k, v => [(k, v)]
  | kv :: rest, k, v =>
    if kv.1 = k then (k, v) :: rest else kv :: slotStore rest k v

/-- Model of `ListProperty.__get__` / `DictProperty.__get__` (properties.py
lines 331-338 and 367-374): the stored value is fetched (an instance absent
from storage gets the default via `_add_instance`, which stores the shared
alias); if it is not an Observable container, it is wrapped into a fresh
per-instance container with copied contents and the wrapper is stored. -/
def containerGet {α : Type} (s : ContainerPropState α) (objId : Nat) :
    ContainerPropState α × α :=
  match (slotFind s.storage objId).getD .sharedDefault with
  | .sharedDefault =>
    ({ s with storage := slotStore s.storage objId (.own s.default) },
      s.default)
  | .own v => (s, v)

/-- Mutating the `ObservableContainer` previously obtained from
`containerGet` for this instance: the mutation reaches exactly the
container held in this instance's own slot. -/
def containerMutate {α : Type} (s : ContainerPropState α) (objId : Nat)
    (f : α → α) : ContainerPropState α :=
  { s with storage :=
      match slotFind s.storage objId with
      | some (.own v) => slotStore s.storage objId (.own (f v))
      | _ => s.storage }

theorem emitAll_held {α : Type} (ps : List α) (s : EventState α)
    (h : s.held = true) :
    emitAll s ps = { s with lastEvent := ps.foldl (fun _ p => some p) s.lastEvent } := by
  induction ps generalizing s with
  | nil => simp [emitAll]
  | cons p ps ih =>
    simp only [emitAll, List.foldl_cons] at *
    rw [show (eventCall s p).1 = { s with lastEvent := some p } by
      simp [eventCall, h]]
    exact ih { s with lastEvent := some p } h

theorem foldl_some_append {α : Type} (ps : List α) (p : α) (a : Option α) :
    (ps ++ [p]).foldl (fun _ q => some q) a = some p := by
  simp [List.foldl_append]

/-- C1: for every channel whose emission lock is held, every emission issued
while held invokes no callback and is recorded as the pending payload with
last-write-wins; after N >= 1 emissions with payloads `init ++ [p]` issued
while held, releasing the lock produces exactly one dispatch carrying the
last payload `p`, with all intermediate payloads dropped. -/
theorem emission_lock_coalescing {α : Type} (s : EventState α)
    (init : List α) (p : α) (h : s.held = true) :
    (emitAll s (init ++ [p])).invoked = s.invoked ∧
    (emitAll s (init ++ [p])).dispatchLog = s.dispatchLog ∧
    (emitAll s (init ++ [p])).lastEvent = some p ∧
    (lockRelease (emitAll s (init ++ [p]))).dispatchLog = s.dispatchLog ++ [p] ∧
    (lockRelease (emitAll s (init ++ [p]))).held = false ∧
    (lockRelease (emitAll s (init ++ [p]))).lastEvent = none := by
  rw [emitAll_held _ _ h, foldl_some_append]
  refine ⟨rfl, rfl, rfl, ?_, ?_, ?_⟩ <;>
    simp [lockRelease, h, eventCall]

theorem emission_lock_coalescing_witness :
    (emitAll sampleHeldEvent [(0, 0), (1, 1), (2, 2)]).invoked = [] ∧
    (emitAll sampleHeldEvent [(0, 0), (1, 1), (2, 2)]).dispatchLog = [] ∧
    (emitAll sampleHeldEvent [(0, 0), (1, 1), (2, 2)]).lastEvent = some (2, 2) ∧
    (lockRelease (emitAll sampleHeldEvent [(0, 0), (1, 1), (2, 2)])).dispatchLog
      = [(2, 2)] ∧
    (lockRelease (emitAll sampleHeldEvent [(0, 0), (1, 1), (2, 2)])).held = false ∧
    (lockRelease (emitAll sampleHeldEvent [(0, 0), (1, 1), (2, 2)])).lastEvent
      = none :=
  emission_lock_coalescing sampleHeldEvent [(0, 0), (1, 1)] (2, 2) rfl

theorem runListeners_all_not_false {α : Type} :
    ∀ (fs : List (α → PyRet)) (i : Nat) (p : α),
    (∀ g ∈ fs, g p ≠ .pyFalse) →
    runListeners fs i p = (.pyNone, List.range' i fs.length)
  | [], i, p, _ => by simp [runListeners]
  | f :: fs, i, p, h => by
    have hf : ¬ f p = .pyFalse := h f (by simp)
    have ih := runListeners_all_not_false fs (i + 1) p
      (fun g hg => h g (by simp [hg]))
    simp [runListeners, hf, ih, List.range'_succ]

theorem runListeners_first_false {α : Type} :
    ∀ (pre : List (α → PyRet)) (f : α → PyRet) (post : List (α → PyRet))
      (i : Nat) (p : α),
    (∀ g ∈ pre, g p ≠ .pyFalse) → f p = .pyFalse →
    runListeners (pre ++ f :: post) i p = (.pyFalse, List.range' i (pre.length + 1))
  | [], f, post, i, p, _, hf => by
    simp [runListeners, hf, List.range'_succ]
  | g :: pre, f, post, i, p, h, hf => by
    have hg : ¬ g p = .pyFalse := h g (by simp)
    have ih := runListeners_first_false pre f post (i + 1) p
      (fun g' hg' => h g' (by simp [hg'])) hf
    simp [runListeners, hg, ih, List.range'_succ]

/-- C3: for every dispatch of a channel to its synchronous listeners, if an
invoked listener returns the boolean False the dispatch stops immediately
(the listeners after it are not invoked: the invocation log gains exactly
the indices of the earlier listeners and of the one that returned False)
and that False value is returned by emit; if no invoked listener returns
False, every listener is invoked once and emit returns None
(`Dispatcher.emit` returns the value of `Event.__call__` unchanged,
dispatch.py line 310). -/
theorem dispatch_short_circuit {α : Type} :
    (∀ (s : EventState α) (pre post : List (α → PyRet)) (f : α → PyRet) (p : α),
      s.held = false → s.listeners = pre ++ f :: post →
      (∀ g ∈ pre, g p ≠ .pyFalse) → f p = .pyFalse →
      (eventCall s p).2 = .pyFalse ∧
      (eventCall s p).1.invoked = s.invoked ++ List.range' 0 (pre.length + 1)) ∧
    (∀ (s : EventState α) (p : α),
      s.held = false → (∀ g ∈ s.listeners, g p ≠ .pyFalse) →
      (eventCall s p).2 = .pyNone ∧
      (eventCall s p).1.invoked = s.invoked ++ List.range' 0 s.listeners.length) := by
  constructor
  · intro s pre post f p hheld hls hpre hf
    have hrun := runListeners_first_false pre f post 0 p hpre hf
    rw [eventCall, hheld]
    simp [hls, hrun]
  · intro s p hheld hall
    have hrun := runListeners_all_not_false s.listeners 0 p hall
    rw [eventCall, hheld]
    simp [hrun]

theorem dispatch_short_circuit_witness :
    ((eventCall shortCircuitEvent 5).2 = .pyFalse ∧
      (eventCall shortCircuitEvent 5).1.invoked = [] ++ List.range' 0 2) ∧
    ((eventCall { shortCircuitEvent with
        listeners := [fun _ => .pyTrue, fun _ => .pyOther 3] } 5).2 = .pyNone ∧
      (eventCall { shortCircuitEvent with
        listeners := [fun _ => .pyTrue, fun _ => .pyOther 3] } 5).1.invoked
        = [] ++ List.range' 0 2) :=
  ⟨dispatch_short_circuit.1 shortCircuitEvent [fun _ => .pyTrue]
      [fun _ => .pyOther 3] (fun _ => .pyFalse) 5 rfl rfl
      (by intro g hg; simp at hg; subst hg; decide) rfl,
    dispatch_short_circuit.2 { shortCircuitEvent with
        listeners := [fun _ => .pyTrue, fun _ => .pyOther 3] } 5 rfl
      (by intro g hg; simp at hg; rcases hg with h | h <;> subst h <;> decide)⟩

/-- C2: evaluation of `EmissionHoldLock` at the failing inputs.  First
conjuncts: after acquiring twice and releasing twice with no emission while
held, the lock is still held (the source resets `held` only when a pending
event exists, utils.py lines 157-164), contradicting the claim that the
outermost release leaves `held = false`.  Remaining conjuncts: with one
emission while held, the pending event is already dispatched by the first
(inner) release, not the second (outermost) one, which is then a no-op. -/
theorem emission_lock_release_bug :
    (lockRelease (lockRelease (lockAcquire (lockAcquire idleEvent)))).held = true ∧
    (lockRelease (lockAcquire (lockAcquire idleEvent))).held = true ∧
    (lockRelease ((eventCall (lockAcquire (lockAcquire idleEvent)) 7).1)).dispatchLog
      = [7] ∧
    (lockRelease ((eventCall (lockAcquire (lockAcquire idleEvent)) 7).1)).held
      = false ∧
    (lockRelease (lockRelease ((eventCall (lockAcquire (lockAcquire idleEvent)) 7).1))).dispatchLog
      = [7] :=
  ⟨rfl, rfl, rfl, rfl, rfl⟩

theorem numericRangeCheck_ne_invalid (vmin vmax : Option Int) (n : Int) :
    numericRangeCheck vmin vmax n ≠ .error .invalidType := by
  cases vmin <;> cases vmax <;>
    simp only [numericRangeCheck] <;> (try split_ifs) <;> simp

/-- C4: a property assignment that fails validation raises the matching
typed error synchronously, performs no dispatch and leaves the stored value
unchanged.  Part one: assigning None with `allownone` false raises
`NoneNotAllowedError` before touching anything.  Part two: whenever the
validator rejects a non-None value, the error propagates, the dispatch log
is unchanged and the stored value is still the pre-assignment value.  Parts
three and four classify the numeric validator of `IntProperty`: it returns
`InvalidTypeError` exactly on non-int values and `OutOfRangeError` exactly
on ints outside the effective bounds. -/
theorem validation_failure_preserves_state :
    (∀ (validate : PVal → Except VError PVal) (s : PropState),
      s.allownone = false →
      propertySet validate s .pyNone = (s, some .noneNotAllowed)) ∧
    (∀ (validate : PVal → Except VError PVal) (s : PropState) (v : PVal) (e : VError),
      v ≠ PVal.pyNone → validate v = .error e →
      propertySet validate s v
        = ({ s with stored := some (s.stored.getD s.default) }, some e)) ∧
    (∀ (vmin vmax : Option Int) (v : PVal),
      numericValidate intCoerce vmin vmax v = .error .invalidType ↔
        ∀ n : Int, v ≠ .pyInt n) ∧
    (∀ (vmin vmax : Option Int) (n : Int),
      numericValidate intCoerce vmin vmax (.pyInt n) = .error .outOfRange ↔
        (∃ m, vmin = some m ∧ n < m) ∨ (∃ M, vmax = some M ∧ M < n)) := by
  refine ⟨?_, ?_, ?_, ?_⟩
  · intro validate s h
    simp [propertySet, h]
  · intro validate s v e hv he
    simp [propertySet, hv, he]
  · intro vmin vmax v
    cases v with
    | pyInt n =>
      simp only [numericValidate, intCoerce]
      constructor
      · intro h; exact absurd h (numericRangeCheck_ne_invalid vmin vmax n)
      · intro h; exact absurd rfl (h n)
    | pyBool b => simp [numericValidate]
    | pyNone => simp [numericValidate, intCoerce]
    | pyStr s => simp [numericValidate, intCoerce]
    | pyObj k => simp [numericValidate, intCoerce]
  · intro vmin vmax n
    cases vmin <;> cases vmax <;>
      simp only [numericValidate, intCoerce, numericRangeCheck] <;>
      (try split_ifs) <;> simp_all

theorem validation_failure_preserves_state_witness :
    propertySet (numericValidate intCoerce (some 0) (some 10)) intPropState .pyNone
      = (intPropState, some .noneNotAllowed) ∧
    propertySet (numericValidate intCoerce (some 0) (some 10)) intPropState (.pyStr "x")
      = ({ intPropState with stored := some (.pyInt 5) }, some .invalidType) ∧
    propertySet (numericValidate intCoerce (some 0) (some 10)) intPropState (.pyInt 99)
      = ({ intPropState with stored := some (.pyInt 5) }, some .outOfRange) :=
  ⟨validation_failure_preserves_state.1 _ intPropState rfl,
    validation_failure_preserves_state.2.1 _ intPropState (.pyStr "x")
      .invalidType (fun h => PVal.noConfusion h) rfl,
    validation_failure_preserves_state.2.1 _ intPropState (.pyInt 99)
      .outOfRange (fun h => PVal.noConfusion h) rfl⟩

/-- C5: for every property assignment where the validated new value equals
the currently stored value under Python equality, the assignment is a
no-op: no validation error, no `_on_change` dispatch (`emitted` unchanged,
hence no listener invocation), and the stored value is unchanged. -/
theorem property_set_change_suppression
    (validate : PVal → Except VError PVal) (s : PropState) (v v' : PVal)
    (hn : v = PVal.pyNone → s.allownone = true)
    (hv : (if v = PVal.pyNone then Except.ok v else validate v) = .ok v')
    (heq : pyEq (s.stored.getD s.default) v' = true) :
    propertySet validate s v
      = ({ s with stored := some (s.stored.getD s.default) }, none) := by
  by_cases h1 : v = PVal.pyNone ∧ s.allownone = false
  · have := hn h1.1
    rw [h1.2] at this
    exact absurd this (by simp)
  · simp [propertySet, h1, hv, heq]

theorem property_set_change_suppression_witness :
    propertySet (numericValidate intCoerce (some 0) (some 10)) intPropState
        (.pyInt 5)
      = ({ intPropState with stored := some (.pyInt 5) }, none) :=
  property_set_change_suppression _ intPropState (.pyInt 5) (.pyInt 5)
    (fun h => PVal.noConfusion h) rfl rfl

/-- C10: every `NumericProperty` subclass rejects `bool` values with
`InvalidTypeError` before its coercion and range checks run (the result is
`InvalidTypeError` for every coercion function and every pair of bounds,
never `OutOfRangeError`); `BoolProperty` accepts exactly the `bool` values
and rejects everything else with `InvalidTypeError`. -/
theorem bool_rejected_by_numeric_properties :
    (∀ (coerce : PVal → Except VError Int) (vmin vmax : Option Int) (b : Bool),
      numericValidate coerce vmin vmax (.pyBool b) = .error .invalidType) ∧
    (∀ b : Bool, boolValidateValue (.pyBool b) = .ok (.pyBool b)) ∧
    (∀ v : PVal, (∀ b : Bool, v ≠ .pyBool b) →
      boolValidateValue v = .error .invalidType) := by
  refine ⟨?_, ?_, ?_⟩
  · intro coerce vmin vmax b; rfl
  · intro b; rfl
  · intro v hv
    cases v with
    | pyBool b => exact absurd rfl (hv b)
    | pyNone => rfl
    | pyInt n => rfl
    | pyStr s => rfl
    | pyObj k => rfl

theorem bool_rejected_by_numeric_properties_witness :
    numericValidate intCoerce (some 0) (some 10) (.pyBool true)
      = .error .invalidType ∧
    boolValidateValue (.pyBool true) = .ok (.pyBool true) ∧
    boolValidateValue (.pyInt 1) = .error .invalidType :=
  ⟨bool_rejected_by_numeric_properties.1 intCoerce (some 0) (some 10) true,
    bool_rejected_by_numeric_properties.2.1 true,
    bool_rejected_by_numeric_properties.2.2 (.pyInt 1)
      (fun _ h => PVal.noConfusion h)⟩

theorem dictSet_idem (d : List (WrKey × Callback)) (k : WrKey) (c : Callback) :
    dictSet (dictSet d k c) k c = dictSet d k c := by
  induction d with
  | nil => simp [dictSet]
  | cons kv rest ih =>
    by_cases h : kv.1 = k
    · simp [dictSet, h]
    · simp [dictSet, h, ih]

theorem count_snd_dictSet : ∀ (d : List (WrKey × Callback)) (m : Callback),
    (d.map Prod.fst).Nodup → (∀ kv ∈ d, kv.1 = kv.2.wrkey) →
    ((dictSet d m.wrkey m).map Prod.snd).count m = 1
  | [], m, _, _ => by simp [dictSet]
  | kv :: rest, m, hnd, hkeys => by
    simp only [List.map_cons, List.nodup_cons] at hnd
    by_cases hk : kv.1 = m.wrkey
    · have hnotin : m ∉ rest.map Prod.snd := by
        intro hm
        rcases List.mem_map.mp hm with ⟨kv', hkv', hsnd⟩
        have hk' : kv'.1 = kv'.2.wrkey :=
          hkeys kv' (List.mem_cons_of_mem _ hkv')
        have hmem : kv'.1 ∈ rest.map Prod.fst := List.mem_map_of_mem _ hkv'
        rw [hk', hsnd, ← hk] at hmem
        exact hnd.1 hmem
      have h0 : (rest.map Prod.snd).count m = 0 := List.count_eq_zero.mpr hnotin
      simp [dictSet, hk, List.count_cons, h0]
    · have hne : ¬ kv.2 = m := by
        intro he
        exact hk (by rw [hkeys kv (List.mem_cons_self kv rest), he])
      have ih := count_snd_dictSet rest m hnd.2
        (fun kv' h' => hkeys kv' (List.mem_cons_of_mem _ h'))
      simp [dictSet, hk, List.count_cons, hne, ih]

/-- C6: subscribing the same (function, owner) callback twice is idempotent:
the second `add_method` leaves the container exactly as after the first
(no duplicate entry), so `iter_methods` yields that callback exactly once
and a single dispatch invokes it exactly once, not twice. -/
theorem subscribe_idempotent (d : WMContainer) (m : Callback) (h : wmcWF d) :
    addMethod (addMethod d m) m = addMethod d m ∧
    (iterMethods (addMethod (addMethod d m) m)).count m = 1 := by
  constructor
  · simp [addMethod, dictSet_idem]
  · simp only [addMethod, iterMethods, dictSet_idem]
    exact count_snd_dictSet d m h.1 h.2

theorem subscribe_idempotent_witness :
    addMethod (addMethod [(WrKey.funcKey 9, Callback.func 9)] (.method 4 7))
        (.method 4 7)
      = addMethod [(WrKey.funcKey 9, Callback.func 9)] (.method 4 7) ∧
    (iterMethods (addMethod
        (addMethod [(WrKey.funcKey 9, Callback.func 9)] (.method 4 7))
        (.method 4 7))).count (.method 4 7) = 1 :=
  subscribe_idempotent [(WrKey.funcKey 9, Callback.func 9)] (.method 4 7)
    (by constructor <;> simp [Callback.wrkey])

/-- C7 counterexample: binding with one valid name followed by an unknown
name raises `DoesNotExistError` for the unknown name, yet the callback for
the valid name has already been bound, so the call does not leave every
channel unbound as the claim states. -/
theorem bind_not_atomic_counterexample :
    (dispatcherBind bindDemoState [("on_test", 1), ("missing", 2)]).2
      = some "missing" ∧
    (dispatcherBind bindDemoState [("on_test", 1), ("missing", 2)]).1.bindings
      = [("on_test", 1)] := by
  constructor <;> rfl

/-- C7 amended: a multi-name bind call containing an unregistered name
raises `DoesNotExistError` for the first unregistered name in argument
order; the callbacks for the names before it are bound, and the failing
name and every later name are not bound.  Names are validated one at a
time as they are processed, not up front. -/
theorem bind_partial_validation
    (s : DispatcherState) (pre : List (String × Nat)) (n : String) (cb : Nat)
    (rest : List (String × Nat))
    (hpre : ∀ q ∈ pre, eventRegistered s q.1 = true)
    (hn : eventRegistered s n = false) :
    dispatcherBind s (pre ++ (n, cb) :: rest)
      = ({ s with bindings := s.bindings ++ pre }, some n) := by
  induction pre generalizing s with
  | nil =>
    simp only [List.nil_append, dispatcherBind, hn]
    simp
  | cons q pre ih =>
    have hq : eventRegistered s q.1 = true := hpre q (List.mem_cons_self q pre)
    rw [List.cons_append]
    show dispatcherBind s ((q.1, q.2) :: (pre ++ (n, cb) :: rest)) = _
    rw [dispatcherBind]
    simp only [hq, if_true]
    rw [ih { s with bindings := s.bindings ++ [(q.1, q.2)] }
      (fun q' hq' => hpre q' (List.mem_cons_of_mem _ hq')) hn]
    simp

theorem bind_partial_validation_witness :
    dispatcherBind bindDemoState [("on_test", 1), ("missing", 2)]
      = ({ bindDemoState with bindings := [("on_test", 1)] }, some "missing") :=
  bind_partial_validation bindDemoState [("on_test", 1)] "missing" 2 []
    (by decide) (by decide)

theorem find?_dictAssoc_self (es : List (String × ObsVal)) (k : String)
    (v : ObsVal) :
    ((dictAssoc es k v).find? (fun kv => kv.1 == k)).map Prod.snd = some v := by
  induction es with
  | nil => simp [dictAssoc]
  | cons kv rest ih =>
    by_cases h : kv.1 = k
    · simp [dictAssoc, h]
    · simp [dictAssoc, h, ih]

/-- C8: for a dict-typed property `d` (default mode, no copy-on-change),
executing `d["x"] = {}` and then `d["x"]["y"] = 1` produces exactly two
dispatches on the property channel, one per mutating call; the inserted
plain dict is wrapped by `_build_observable` into an `ObservableDict` node
inside the tree (whose parent link is its enclosing container); and a
change notification bubbling up any chain of parent links drives exactly
one Channel dispatch, at the root only, with every intermediate container
merely relaying. -/
theorem container_bubbling (s : DictPropertyState) :
    (∀ ctx : ObsCtx, emitChangeDispatches ctx = 1) ∧
    (odictSetItem s [] "x" (.dict [])).dispatchLog.length
      = s.dispatchLog.length + 1 ∧
    ((odictSetItem s [] "x" (.dict [])).value.find?
        (fun kv => kv.1 == "x")).map Prod.snd = some (.obsDict []) ∧
    (odictSetItem (odictSetItem s [] "x" (.dict [])) ["x"] "y"
        (.int 1)).dispatchLog.length = s.dispatchLog.length + 2 ∧
    ((odictSetItem (odictSetItem s [] "x" (.dict [])) ["x"] "y"
        (.int 1)).value.find? (fun kv => kv.1 == "x")).map Prod.snd
      = some (.obsDict [("y", .int 1)]) := by
  have hbuild : buildObservable (.dict []) = .obsDict [] := by
    simp [buildObservable, buildEntries]
  have h1 : odictSetItem s [] "x" (.dict [])
      = { value := dictAssoc s.value "x" (.obsDict []),
          dispatchLog := s.dispatchLog ++ [dictAssoc s.value "x" (.obsDict [])] } := by
    simp [odictSetItem, setAtPath, hbuild]
  have h2 := find?_dictAssoc_self s.value "x" (.obsDict [])
  have hinner : setAtPath (dictAssoc s.value "x" (.obsDict [])) ["x"] "y" (.int 1)
      = some (dictAssoc (dictAssoc s.value "x" (.obsDict [])) "x"
          (.obsDict [("y", .int 1)])) := by
    rw [setAtPath, h2]
    simp [setAtPath, dictAssoc, buildObservable]
  have h3 : odictSetItem (odictSetItem s [] "x" (.dict [])) ["x"] "y" (.int 1)
      = { value := dictAssoc (dictAssoc s.value "x" (.obsDict [])) "x"
            (.obsDict [("y", .int 1)]),
          dispatchLog := (s.dispatchLog ++ [dictAssoc s.value "x" (.obsDict [])])
            ++ [dictAssoc (dictAssoc s.value "x" (.obsDict [])) "x"
                (.obsDict [("y", .int 1)])] } := by
    rw [h1]
    simp only [odictSetItem, hinner]
  refine ⟨?_, ?_, ?_, ?_, ?_⟩
  · intro ctx
    induction ctx with
    | root => rfl
    | child parent ih => simpa [emitChangeDispatches] using ih
  · rw [h1]; simp
  · rw [h1]; exact h2
  · rw [h3]; simp
  · rw [h3]
    exact find?_dictAssoc_self (dictAssoc s.value "x" (.obsDict [])) "x"
      (.obsDict [("y", .int 1)])

theorem slotFind_slotStore_self {α : Type} (st : List (Nat × CSlot α))
    (k : Nat) (v : CSlot α) :
    slotFind (slotStore st k v) k = some v := by
  induction st with
  | nil => simp [slotStore, slotFind]
  | cons kv rest ih =>
    by_cases h : kv.1 = k
    · simp [slotStore, slotFind, h]
    · simp only [slotStore, if_neg h]
      simp only [slotFind] at ih ⊢
      rw [List.find?_cons_of_neg _ (by simp [h])]
      exact ih

theorem slotFind_slotStore_ne {α : Type} (st : List (Nat × CSlot α))
    (k k' : Nat) (v : CSlot α) (h : ¬ k' = k) :
    slotFind (slotStore st k v) k' = slotFind st k' := by
  have hkk : ¬ k = k' := fun he => h he.symm
  induction st with
  | nil =>
    simp only [slotStore, slotFind]
    rw [List.find?_cons_of_neg _ (by simp [hkk])]
  | cons kv rest ih =>
    by_cases hk : kv.1 = k
    · simp only [slotStore, if_pos hk, slotFind]
      rw [List.find?_cons_of_neg _ (by simp [hkk])]
      rw [List.find?_cons_of_neg _ (by simp [hk, hkk])]
    · simp only [slotStore, if_neg hk, slotFind]
      by_cases hk' : kv.1 = k'
      · rw [List.find?_cons_of_pos _ (by simp [hk']),
          List.find?_cons_of_pos _ (by simp [hk'])]
      · rw [List.find?_cons_of_neg _ (by simp [hk']),
          List.find?_cons_of_neg _ (by simp [hk'])]
        exact ih

theorem containerGet_spec {α : Type} (s : ContainerPropState α) (k : Nat) :
    (containerGet s k).1.default = s.default ∧
    slotFind (containerGet s k).1.storage k
      = some (.own ((containerGet s k).2)) ∧
    ∀ x, ¬ x = k →
      slotFind (containerGet s k).1.storage x = slotFind s.storage x := by
  cases ho : slotFind s.storage k with
  | none =>
    have hc : containerGet s k
        = ({ s with storage := slotStore s.storage k (.own s.default) },
            s.default) := by
      simp [containerGet, ho]
    rw [hc]
    exact ⟨rfl, slotFind_slotStore_self s.storage k _,
      fun x hx => slotFind_slotStore_ne s.storage k x _ hx⟩
  | some sl =>
    cases sl with
    | sharedDefault =>
      have hc : containerGet s k
          = ({ s with storage := slotStore s.storage k (.own s.default) },
              s.default) := by
        simp [containerGet, ho]
      rw [hc]
      exact ⟨rfl, slotFind_slotStore_self s.storage k _,
        fun x hx => slotFind_slotStore_ne s.storage k x _ hx⟩
    | own v =>
      have hc : containerGet s k = (s, v) := by simp [containerGet, ho]
      rw [hc]
      exact ⟨rfl, ho, fun x hx => rfl⟩

theorem containerGet_of_own {α : Type} {s : ContainerPropState α} {k : Nat}
    {v : α} (h : slotFind s.storage k = some (.own v)) :
    containerGet s k = (s, v) := by
  simp [containerGet, h]

/-- C9: for every container-typed property with a class-level default,
reading the property on an instance materializes an observable container
for that instance alone: after reads on two distinct instances, mutating
the container obtained from the first changes that container, but changes
neither the value subsequently read from the second instance nor the
class-level default. -/
theorem container_default_not_shared {α : Type} (s : ContainerPropState α)
    (a b : Nat) (f : α → α) (hab : ¬ a = b) :
    (containerGet (containerMutate (containerGet (containerGet s a).1 b).1 a f)
        b).2
      = (containerGet (containerGet s a).1 b).2 ∧
    (containerGet (containerMutate (containerGet (containerGet s a).1 b).1 a f)
        a).2
      = f ((containerGet s a).2) ∧
    (containerMutate (containerGet (containerGet s a).1 b).1 a f).default
      = s.default := by
  obtain ⟨hd1, hself1, hoth1⟩ := containerGet_spec s a
  obtain ⟨hd2, hself2, hoth2⟩ := containerGet_spec (containerGet s a).1 b
  have hfa : slotFind (containerGet (containerGet s a).1 b).1.storage a
      = some (.own ((containerGet s a).2)) := by
    rw [hoth2 a hab]
    exact hself1
  have hmut : containerMutate (containerGet (containerGet s a).1 b).1 a f
      = { (containerGet (containerGet s a).1 b).1 with
          storage := slotStore (containerGet (containerGet s a).1 b).1.storage a
            (.own (f ((containerGet s a).2))) } := by
    simp [containerMutate, hfa]
  refine ⟨?_, ?_, ?_⟩
  · have hfb : slotFind (containerMutate
        (containerGet (containerGet s a).1 b).1 a f).storage b
        = some (.own ((containerGet (containerGet s a).1 b).2)) := by
      rw [hmut]
      rw [slotFind_slotStore_ne _ a b _ (fun he => hab he.symm)]
      exact hself2
    rw [containerGet_of_own hfb]
  · have hfa' : slotFind (containerMutate
        (containerGet (containerGet s a).1 b).1 a f).storage a
        = some (.own (f ((containerGet s a).2))) := by
      rw [hmut]
      exact slotFind_slotStore_self _ a _
    rw [containerGet_of_own hfa']
  · rw [hmut]
    rw [show ({ (containerGet (containerGet s a).1 b).1 with
        storage := slotStore (containerGet (containerGet s a).1 b).1.storage a
          (.own (f ((containerGet s a).2))) } : ContainerPropState α).default
        = (containerGet (containerGet s a).1 b).1.default from rfl]
    rw [hd2, hd1]

/-- Concrete list-typed property: class default `[1, 2]`, no instance has
read it yet. -/
def demoListProp : ContainerPropState (List Int) :=
  { default := [1, 2], storage := [] }

theorem container_default_not_shared_witness :
    (containerGet (containerMutate
        (containerGet (containerGet demoListProp 0).1 1).1 0
        (fun l => 99 :: l)) 1).2
      = (containerGet (containerGet demoListProp 0).1 1).2 ∧
    (containerGet (containerMutate
        (containerGet (containerGet demoListProp 0).1 1).1 0
        (fun l => 99 :: l)) 0).2
      = (fun l => 99 :: l) ((containerGet demoListProp 0).2) ∧
    (containerMutate (containerGet (containerGet demoListProp 0).1 1).1 0
        (fun l => 99 :: l)).default
      = demoListProp.default :=
  container_default_not_shared demoListProp 0 1 (fun l => 99 :: l) (by decide)
